import Mathlib

/-!
# Verification development for `src/locust_test/locustfile_break_check.py`

A shallow embedding, in Lean 4, of the load-test orchestration script
`locustfile_break_check.py`: the report writer `save_results` (its URL
sanitization, report record and output path), the per-URL runner
`LoadTestRunner._run_single_test` (its try/except/finally control flow over an
abstract subprocess), the orchestrator `LoadTestRunner.run_concurrent_tests`
(its URL de-duplication and `asyncio.gather` fan-out), and the public entry
point `run_break_test`.

Python strings are modelled as `List Char` wrapped in `String`; Python's
`str.replace` is re-implemented here (`pyReplace`) because it must be
executable by the kernel.  Machine-level concerns (actual process spawning,
real I/O) are modelled by a small scenario type describing which of the
side-effecting steps fails, with the control flow of the Python code
translated faithfully over it.
-/

namespace LocustBreakCheck

/-! ## Python string primitives -/

/-- `listStartsWith s p` is true when `p` is a leading segment of `s`
(character-wise). -/
def listStartsWith : List Char → List Char → Bool
  | _, [] => true
  | [], _ :: _ => false
  | c :: cs, p :: ps => c == p && listStartsWith cs ps

/-- Fuel-driven core of Python's `str.replace`: one left-to-right pass that
replaces non-overlapping occurrences of `pat` (assumed nonempty, as in every
call in the source) with `rep`.  `fuel ≥ s.length` makes the recursion total
and structural so that the kernel can evaluate it. -/
def pyReplaceChars : Nat → List Char → List Char → List Char → List Char
  | 0, s, _, _ => s
  | _ + 1, [], _, _ => []
  | fuel + 1, c :: cs, pat, rep =>
    if listStartsWith (c :: cs) pat then
      rep ++ pyReplaceChars fuel ((c :: cs).drop pat.length) pat rep
    else
      c :: pyReplaceChars fuel cs pat rep

/-- Python's `s.replace(pat, rep)` for a nonempty pattern. -/
def pyReplace (s pat rep : String) : String :=
  ⟨pyReplaceChars s.toList.length s.toList pat.toList rep.toList⟩

/-! ## Report writer: URL sanitization and output path (source lines 61-65) -/

/-- Embedding of line 64 of the source:
`url_part = environment.host.replace('https://', '').replace('http://', '')
.replace('/', '_').replace('.', '_')`. -/
def url_part (host : String) : String :=
  pyReplace (pyReplace (pyReplace (pyReplace host "https://" "") "http://" "") "/" "_") "." "_"

/-- Embedding of lines 61-65: `Path("performance_tests/break_check") /
f"{url_part}.json"`, rendered as the full path string. -/
def reportFilename (host : String) : String :=
  "performance_tests/break_check/" ++ url_part host ++ ".json"

/-- `dropLeading s pre`: remove `pre` from `s` only when it occurs as a leading
segment of `s` (otherwise return `s` unchanged). -/
def dropLeading (s pre : String) : String :=
  if listStartsWith s.toList pre.toList then ⟨s.toList.drop pre.toList.length⟩ else s

/-- Sanitization as the specification words it ("strips the `https://` and
`http://` prefixes and replaces `/` and `.` with `_`"), read literally: only a
leading occurrence of each scheme string is removed.  Stated for comparison
with `url_part`, which embeds the source code (the source removes *every*
occurrence of the scheme strings, not only a leading one). -/
def url_part_specStrip (host : String) : String :=
  pyReplace (pyReplace (dropLeading (dropLeading host "https://") "http://") "/" "_") "." "_"

/-- The report path as described by the specification sentence, built from the
literally-read sanitization. -/
def reportFilename_specStrip (host : String) : String :=
  "performance_tests/break_check/" ++ url_part_specStrip host ++ ".json"

/-! ## URL de-duplication (source line 119: `list(dict.fromkeys(urls))`) -/

/-- Fuel-driven first-occurrence de-duplication: keep each element's first
occurrence, delete every later duplicate.  This is the semantics of Python's
`list(dict.fromkeys(urls))`.  `fuel ≥ l.length` makes the recursion
structural. -/
def dedupFirstAux {α : Type} [DecidableEq α] : Nat → List α → List α
  | 0, _ => []
  | _ + 1, [] => []
  | fuel + 1, x :: xs =>
    x :: dedupFirstAux fuel (xs.filter fun y => decide (y ≠ x))

/-- Embedding of `list(dict.fromkeys(urls))` (source line 119). -/
def dedupFirst {α : Type} [DecidableEq α] (l : List α) : List α :=
  dedupFirstAux l.length l

/-- Index of the first occurrence of `a` in a list (length of the list when
`a` does not occur).  Used to state that `dedupFirst` preserves first-seen
order. -/
def firstIdx {α : Type} [DecidableEq α] (a : α) : List α → Nat
  | [] => 0
  | x :: xs => if x = a then 0 else firstIdx a xs + 1

/-! ## The per-URL runner `LoadTestRunner._run_single_test` (lines 78-114)

The runner's interaction with the operating system (spawning the locust
subprocess, reading its stdout, awaiting its exit) is abstracted by `RunCase`,
which names the four relevant behaviours of the environment: the launch call
raises, the streaming loop raises, the surrounding task is cancelled at one of
the awaits, or everything succeeds.  The Python control flow over those events
is translated step by step. -/

/-- A Python exception value.  `isException` is `true` for subclasses of
`Exception` (which `except Exception` catches) and `false` for exceptions
deriving only from `BaseException`, such as `asyncio.CancelledError` and
`KeyboardInterrupt`. -/
structure PyExn where
  name : String
  isException : Bool
deriving DecidableEq

/-- State of the spawned subprocess as the runner sees it: `returncode` is
`none` until an exit code has been observed by an `await process.wait()`;
`running` records whether the OS process is still alive and unreaped;
`terminated` records whether `process.terminate()` was called on it. -/
structure ProcState where
  returncode : Option Int
  running : Bool
  terminated : Bool
deriving DecidableEq

/-- Behaviour of the environment during one `_run_single_test` call:
* `launchError`   — `create_subprocess_exec` (line 93) raises an `Exception`
  (e.g. `OSError`: the interpreter or the locust module cannot be launched);
* `streamError`   — an `Exception` is raised inside the stdout loop
  (lines 99-105), with the process still running;
* `cancelledMidStream` — the surrounding asyncio task is cancelled while
  suspended at one of the awaits of lines 100-107 (`CancelledError`, which is
  not an `Exception` subclass and is not caught by line 109);
* `success`       — the subprocess runs to completion and line 107 observes
  its exit code. -/
inductive RunCase
  | launchError
  | streamError
  | cancelledMidStream
  | success
deriving DecidableEq

/-- Lines 80-90: the argument vector handed to `create_subprocess_exec`.
`sys.executable` and `__file__` are abstracted by fixed strings; everything
else is built exactly as in the source. -/
def buildCmd (url : String) (users spawn_rate : Nat) (run_time : String) : List String :=
  ["python3", "-m", "locust", "-f", "locustfile_break_check.py", "--headless",
   "-u", toString users, "-r", toString spawn_rate, "--run-time", run_time,
   "--only-summary", "--host", url]

/-- Line 93: `process = await create_subprocess_exec(*cmd, stdout=PIPE,
stderr=PIPE)`.  On success the process is running and no exit code has been
observed yet. -/
def launchStep : RunCase → Except PyExn ProcState
  | RunCase.launchError => Except.error ⟨"OSError", true⟩
  | _ => Except.ok { returncode := none, running := true, terminated := false }

/-- Lines 99-107: the stdout readline loop followed by `await process.wait()`.
On success the exit code is observed (modelled as 0) and the process is
reaped; on an exception or on cancellation the process state is unchanged
(still running, no exit code observed). -/
def streamAndWaitStep : RunCase → ProcState → Except PyExn ProcState
  | RunCase.streamError, _ => Except.error ⟨"IOError", true⟩
  | RunCase.cancelledMidStream, _ => Except.error ⟨"CancelledError", false⟩
  | _, p => Except.ok { p with returncode := some 0, running := false }

/-- The `try` block, lines 92-107.  Returns the value of the local variable
`process` when the block is left (`none` means the assignment on line 93 was
never reached, i.e. the local is unbound) together with the pending exception,
if one was raised. -/
def tryBlock (s : RunCase) : Option ProcState × Option PyExn :=
  match launchStep s with
  | Except.error e => (none, some e)
  | Except.ok p =>
    match streamAndWaitStep s p with
    | Except.error e => (some p, some e)
    | Except.ok q => (some q, none)

/-- Lines 109-110: `except Exception as e: logger.error(f"Error testing ...")`.
Catches only `Exception` subclasses.  Returns the exception still in flight
(if any) and whether the error was logged. -/
def exceptBlock (e : Option PyExn) : Option PyExn × Bool :=
  match e with
  | some ex => if ex.isException then (none, true) else (some ex, false)
  | none => (none, false)

/-- Lines 111-114: `finally: if process and process.returncode is None:
process.terminate(); await process.wait()`.  Reading the local `process` when
it was never assigned raises `UnboundLocalError` (an `Exception` subclass),
which replaces any exception already in flight; otherwise, when no exit code
has been observed, the process is sent SIGTERM and reaped (modelled exit code
-15).  Returns the final process state and the exception leaving the
function. -/
def finallyBlock (proc : Option ProcState) (pending : Option PyExn) :
    Option ProcState × Option PyExn :=
  match proc with
  | none => (none, some ⟨"UnboundLocalError", true⟩)
  | some p =>
    if p.returncode = none then
      (some { returncode := some (-15), running := false, terminated := true }, pending)
    else
      (some p, pending)

/-- Observable outcome of one `_run_single_test` call. -/
structure SingleRunResult where
  /-- The argument vector built on lines 80-90. -/
  cmd : List String
  /-- The local `process` at the moment the `finally` block starts
  (`none` = unbound: line 93 raised before assigning). -/
  procAtFinally : Option ProcState
  /-- The process state after the `finally` block. -/
  finalProc : Option ProcState
  /-- The exception escaping past the function boundary, if any. -/
  escapedExn : Option PyExn
  /-- Whether line 110 logged an error tagged with the URL. -/
  loggedError : Bool
deriving DecidableEq

/-- Embedding of `LoadTestRunner._run_single_test` (lines 78-114). -/
def _run_single_test (url : String) (users spawn_rate : Nat) (run_time : String)
    (s : RunCase) : SingleRunResult :=
  let cmd := buildCmd url users spawn_rate run_time
  let te := tryBlock s
  let ec := exceptBlock te.2
  let fi := finallyBlock te.1 ec.1
  { cmd := cmd, procAtFinally := te.1, finalProc := fi.1,
    escapedExn := fi.2, loggedError := ec.2 }

/-- `true` when the `finally` block's guard (line 112) is reached with a bound
`process` whose exit code has not yet been observed — the situation in which
the claimed termination-and-wait cleanup must fire. -/
def cleanupNeeded (r : SingleRunResult) : Bool :=
  match r.procAtFinally with
  | some p => p.returncode.isNone
  | none => false

/-! ## The orchestrator `LoadTestRunner.run_concurrent_tests` (lines 116-126) -/

/-- Outcome of `await asyncio.gather(*tasks)` over the per-URL runs. -/
structure GatherOutcome where
  /-- Results of the per-URL tasks, one per unique URL in first-seen order. -/
  runs : List SingleRunResult
  /-- The exception re-raised by `await gather`, if any child raised. -/
  escapedExn : Option PyExn
  /-- Whether the `await gather` is guaranteed to resume only after every
  child task has reached a terminal state. -/
  awaitedAllChildren : Bool
deriving DecidableEq

/-- Model of `await asyncio.gather(*tasks)` with the default
`return_exceptions=False` (line 126): when no child raises, gather resumes
only after every child has finished; when some child raises, gather re-raises
that child's exception as soon as it occurs, resuming the awaiting coroutine
while sibling tasks may still be running (and, once the exception propagates
out of `asyncio.run`, still-pending siblings are cancelled). -/
def gatherModel (runs : List SingleRunResult) : GatherOutcome :=
  { runs := runs,
    escapedExn := (runs.filterMap fun r => r.escapedExn).head?,
    awaitedAllChildren := runs.all fun r => r.escapedExn.isNone }

/-- Embedding of `LoadTestRunner.run_concurrent_tests` (lines 116-126): URL
list deduplicated by `list(dict.fromkeys(urls))`, one `_run_single_test` task
per unique URL, awaited with `gather`. -/
def run_concurrent_tests (urls : List String) (users spawn_rate : Nat)
    (run_time : String) (scen : String → RunCase) : GatherOutcome :=
  let unique_urls := dedupFirst urls
  gatherModel (unique_urls.map fun u => _run_single_test u users spawn_rate run_time (scen u))

/-! ## The entry point `run_break_test` (lines 128-148) -/

/-- Observable outcome of one `run_break_test` call. -/
structure EntryResult where
  /-- Whether line 131 logged "No URLs provided". -/
  loggedNoUrls : Bool
  /-- The orchestrator outcome, when the orchestrator was invoked at all. -/
  orchestrated : Option GatherOutcome
  /-- The exception escaping `run_break_test`, if any. -/
  escapedExn : Option PyExn
  /-- Whether line 144 logged "Load tests completed successfully". -/
  loggedCompleted : Bool
  /-- Whether line 146 logged "Tests interrupted by user". -/
  loggedInterrupted : Bool
  /-- Whether line 148 logged "Tests failed with error". -/
  loggedFailed : Bool
deriving DecidableEq

/-- Lines 145-148: `except KeyboardInterrupt` then `except Exception`.
Returns the exception still escaping, whether the interruption message was
logged and whether the failure message was logged. -/
def entryCatch (e : Option PyExn) : Option PyExn × Bool × Bool :=
  match e with
  | none => (none, false, false)
  | some ex =>
    if ex.name = "KeyboardInterrupt" then (none, true, false)
    else if ex.isException then (none, false, true)
    else (some ex, false, false)

/-- Embedding of `run_break_test` (lines 128-148): empty-list fast path,
`str(run_time)` normalization, hardcoded `users=1000, spawn_rate=1000`
(lines 140-141), and the top-level exception handling. -/
def run_break_test (urls : List String) (rt : Int) (scen : String → RunCase) :
    EntryResult :=
  if urls.isEmpty then
    { loggedNoUrls := true, orchestrated := none, escapedExn := none,
      loggedCompleted := false, loggedInterrupted := false, loggedFailed := false }
  else
    let g := run_concurrent_tests urls 1000 1000 (toString rt) scen
    let c := entryCatch g.escapedExn
    { loggedNoUrls := false, orchestrated := some g, escapedExn := c.1,
      loggedCompleted := g.escapedExn.isNone, loggedInterrupted := c.2.1,
      loggedFailed := c.2.2 }

/-- The argument vectors of the subprocess launches performed by a
`run_break_test` call. -/
def launchedCmds (r : EntryResult) : List (List String) :=
  match r.orchestrated with
  | none => []
  | some g => g.runs.map fun x => x.cmd

/-! ## The report writer `save_results` (lines 31-69)

`save_results` reads the statistics registry that the external load-test tool
(locust) maintains.  Modelled from the spec: the tool's statistics engine
(§3 "StatRecord ... Produced by the external tool, read-only to this core")
records every request observed during the run once under its
`(endpoint, method)` entry and once in the running total, keeps the entries in
first-seen insertion order, and computes the per-entry timing aggregates
itself (percentile math is out of scope per §1).  Accordingly an environment
carries the raw request log, an abstract timing table, and the total's
optional `last_request_timestamp` / `start_time` attributes (absent — i.e. the
`getattr` default applies — when `none`). -/

/-- One request observed by the external tool during a run. -/
structure ReqRecord where
  name : String
  method : String
  failed : Bool
deriving DecidableEq

/-- The timing aggregates the external tool computes for one stats entry. -/
structure EntryTiming where
  median_response_time : ℚ
  avg_response_time : ℚ
  min_response_time : ℚ
  max_response_time : ℚ
deriving DecidableEq

/-- The locust `environment` object as `save_results` reads it. -/
structure LocustEnv where
  /-- `environment.host`: the target URL of this run. -/
  host : String
  /-- The requests recorded during the run, in order. -/
  requests : List ReqRecord
  /-- Per-`(endpoint, method)` timing aggregates, computed by the tool. -/
  entryTiming : String → String → EntryTiming
  /-- Timing aggregates of `environment.stats.total`. -/
  totalTiming : EntryTiming
  /-- `environment.stats.total.last_request_timestamp`, when available. -/
  last_request_timestamp : Option ℚ
  /-- `environment.stats.total.start_time`, when available. -/
  start_time : Option ℚ

/-- The `(endpoint, method)` key under which the tool files a request. -/
def keyOf (r : ReqRecord) : String × String := (r.name, r.method)

/-- Number of requests in `rs` filed under key `k`. -/
def countKey (k : String × String) (rs : List ReqRecord) : Nat :=
  rs.countP fun r => decide (keyOf r = k)

/-- Lines 34-45: the `stats` array, one dictionary per entry of
`environment.stats.entries.values()` (one per distinct `(endpoint, method)`
key, in first-seen order). -/
structure StatDict where
  endpoint : String
  method : String
  requests : Nat
  failures : Nat
  median_response_time : ℚ
  average_response_time : ℚ
  min_response_time : ℚ
  max_response_time : ℚ
deriving DecidableEq

/-- The `stats` list built by the loop on lines 35-45. -/
def statsEntries (env : LocustEnv) : List StatDict :=
  (dedupFirst (env.requests.map keyOf)).map fun k =>
    { endpoint := k.1
      method := k.2
      requests := countKey k env.requests
      failures := countKey k (env.requests.filter fun r => r.failed)
      median_response_time := (env.entryTiming k.1 k.2).median_response_time
      average_response_time := (env.entryTiming k.1 k.2).avg_response_time
      min_response_time := (env.entryTiming k.1 k.2).min_response_time
      max_response_time := (env.entryTiming k.1 k.2).max_response_time }

/-- Lines 47-59: the report dictionary. -/
structure Report where
  target_url : String
  total_requests : Nat
  total_failures : Nat
  average_response_time : ℚ
  median_response_time : ℚ
  min_response_time : ℚ
  max_response_time : ℚ
  stats : List StatDict
  timestamp : String
  test_duration : ℚ

/-- Embedding of `save_results` (lines 31-69): builds the report record and
the output filename.  `now` stands for `datetime.now().isoformat()`.
`test_duration` is line 57-58 verbatim: `getattr(total,
'last_request_timestamp', 0) - getattr(total, 'start_time', 0)`. -/
def save_results (env : LocustEnv) (now : String) : Report × String :=
  ({ target_url := env.host
     total_requests := env.requests.length
     total_failures := (env.requests.filter fun r => r.failed).length
     average_response_time := env.totalTiming.avg_response_time
     median_response_time := env.totalTiming.median_response_time
     min_response_time := env.totalTiming.min_response_time
     max_response_time := env.totalTiming.max_response_time
     stats := statsEntries env
     timestamp := now
     test_duration := env.last_request_timestamp.getD 0 - env.start_time.getD 0 },
   reportFilename env.host)

/-- A degenerate run environment — no requests recorded, no timing attributes
available — used to instantiate the report-writer theorems at a concrete
input. -/
def envDegenerate : LocustEnv :=
  { host := "https://example.com", requests := [],
    entryTiming := fun _ _ => ⟨0, 0, 0, 0⟩, totalTiming := ⟨0, 0, 0, 0⟩,
    last_request_timestamp := none, start_time := none }

/-! ## Properties of the first-occurrence de-duplication -/

theorem dedupFirstAux_mem {α : Type} [DecidableEq α] (fuel : Nat) :
    ∀ (l : List α), l.length ≤ fuel → ∀ a, (a ∈ dedupFirstAux fuel l ↔ a ∈ l) := by
  induction fuel with
  | zero =>
    intro l h a
    have hl : l = [] := List.length_eq_zero.mp (Nat.le_zero.mp h)
    subst hl
    simp [dedupFirstAux]
  | succ fuel ih =>
    intro l h a
    cases l with
    | nil => simp [dedupFirstAux]
    | cons x xs =>
      have hlen : (xs.filter fun y => decide (y ≠ x)).length ≤ fuel :=
        Nat.le_trans (List.length_filter_le _ _) (Nat.le_of_succ_le_succ h)
      have hih := ih (xs.filter fun y => decide (y ≠ x)) hlen a
      simp only [dedupFirstAux, List.mem_cons, hih, List.mem_filter,
        decide_eq_true_eq]
      by_cases hax : a = x
      · simp [hax]
      · simp [hax]

theorem dedupFirstAux_nodup {α : Type} [DecidableEq α] (fuel : Nat) :
    ∀ (l : List α), l.length ≤ fuel → (dedupFirstAux fuel l).Nodup := by
  induction fuel with
  | zero => intro l _; simp [dedupFirstAux]
  | succ fuel ih =>
    intro l h
    cases l with
    | nil => simp [dedupFirstAux]
    | cons x xs =>
      have hlen : (xs.filter fun y => decide (y ≠ x)).length ≤ fuel :=
        Nat.le_trans (List.length_filter_le _ _) (Nat.le_of_succ_le_succ h)
      simp only [dedupFirstAux, List.nodup_cons]
      constructor
      · intro hx
        have hmem := (dedupFirstAux_mem fuel _ hlen x).mp hx
        simp [List.mem_filter] at hmem
      · exact ih _ hlen

theorem dedupFirstAux_sublist {α : Type} [DecidableEq α] (fuel : Nat) :
    ∀ (l : List α), List.Sublist (dedupFirstAux fuel l) l := by
  induction fuel with
  | zero => intro l; simp [dedupFirstAux]
  | succ fuel ih =>
    intro l
    cases l with
    | nil => simp [dedupFirstAux]
    | cons x xs =>
      simp only [dedupFirstAux, List.cons_sublist_cons]
      exact List.Sublist.trans (ih _) (List.filter_sublist xs)

theorem countP_ne_add_countP_eq {α : Type} [DecidableEq α] (x : α) (xs : List α) :
    (xs.countP fun y => decide (y ≠ x)) + (xs.countP fun y => decide (y = x))
      = xs.length := by
  induction xs with
  | nil => rfl
  | cons a as ih =>
    by_cases h : a = x <;> simp [List.countP_cons, h] at ih ⊢ <;> omega

theorem sum_countP_dedupFirstAux {α : Type} [DecidableEq α] (fuel : Nat) :
    ∀ (l : List α), l.length ≤ fuel →
      ((dedupFirstAux fuel l).map fun k => l.countP fun y => decide (y = k)).sum
        = l.length := by
  induction fuel with
  | zero =>
    intro l h
    have hl : l = [] := List.length_eq_zero.mp (Nat.le_zero.mp h)
    subst hl
    simp [dedupFirstAux]
  | succ fuel ih =>
    intro l h
    cases l with
    | nil => simp [dedupFirstAux]
    | cons x xs =>
      have hlen : (xs.filter fun y => decide (y ≠ x)).length ≤ fuel :=
        Nat.le_trans (List.length_filter_le _ _) (Nat.le_of_succ_le_succ h)
      have htransfer : ∀ k ∈ dedupFirstAux fuel (xs.filter fun y => decide (y ≠ x)),
          ((x :: xs).countP fun y => decide (y = k))
            = (xs.filter fun y => decide (y ≠ x)).countP fun y => decide (y = k) := by
        intro k hk
        have hkmem := (dedupFirstAux_mem fuel _ hlen k).mp hk
        have hkx : k ≠ x := by
          simp only [List.mem_filter, decide_eq_true_eq] at hkmem
          exact hkmem.2
        have hstep : ((x :: xs).countP fun y => decide (y = k))
            = xs.countP fun y => decide (y = k) := by
          simp [List.countP_cons, Ne.symm hkx]
        rw [hstep, List.countP_filter]
        apply List.countP_congr
        intro a _
        by_cases hak : a = k
        · subst hak; simp [hkx]
        · simp [hak]
      simp only [dedupFirstAux, List.map_cons, List.sum_cons,
        List.map_congr_left htransfer, ih _ hlen]
      have hsplit := countP_ne_add_countP_eq x xs
      have hflen : (xs.filter fun y => decide (y ≠ x)).length
          = xs.countP fun y => decide (y ≠ x) :=
        (List.countP_eq_length_filter _ _).symm
      simp only [List.countP_cons, List.length_cons, hflen]
      simp only [decide_not] at hsplit ⊢
      simp only [decide_True, eq_self_iff_true, if_true]
      omega

theorem firstIdx_filter_lt {α : Type} [DecidableEq α] (p : α → Bool) :
    ∀ (l : List α) (a b : α), a ∈ l.filter p → b ∈ l.filter p →
      firstIdx a (l.filter p) < firstIdx b (l.filter p) →
      firstIdx a l < firstIdx b l := by
  intro l
  induction l with
  | nil => simp
  | cons c rest ih =>
    intro a b ha hb hlt
    by_cases hpc : p c
    · rw [List.filter_cons_of_pos hpc] at ha hb hlt
      by_cases hca : c = a
      · have h0 : firstIdx a (c :: rest.filter p) = 0 := by simp [firstIdx, hca]
        rw [h0] at hlt
        have hcb : c ≠ b := by
          intro hcb
          rw [show firstIdx b (c :: rest.filter p) = 0 by simp [firstIdx, hcb]] at hlt
          exact Nat.not_lt_zero _ hlt
        have hab : a ≠ b := hca ▸ hcb
        simp [firstIdx, hca, hcb, hab]
      · by_cases hcb : c = b
        · rw [show firstIdx b (c :: rest.filter p) = 0 by simp [firstIdx, hcb]] at hlt
          exact absurd hlt (Nat.not_lt_zero _)
        · have ha2 : a ∈ rest.filter p := by
            rcases List.mem_cons.mp ha with h | h
            · exact absurd h.symm hca
            · exact h
          have hb2 : b ∈ rest.filter p := by
            rcases List.mem_cons.mp hb with h | h
            · exact absurd h.symm hcb
            · exact h
          have hlt2 : firstIdx a (rest.filter p) < firstIdx b (rest.filter p) := by
            have hax := hlt
            simp only [firstIdx, if_neg hca, if_neg hcb] at hax
            omega
          have hres := ih a b ha2 hb2 hlt2
          simp only [firstIdx, if_neg hca, if_neg hcb]
          omega
    · rw [List.filter_cons_of_neg hpc] at ha hb hlt
      have hca : c ≠ a := by
        intro h
        have := (List.mem_filter.mp ha).2
        rw [← h] at this
        exact hpc this
      have hcb : c ≠ b := by
        intro h
        have := (List.mem_filter.mp hb).2
        rw [← h] at this
        exact hpc this
      have hres := ih a b ha hb hlt
      simp only [firstIdx, if_neg hca, if_neg hcb]
      omega

theorem dedupFirstAux_pairwise_firstIdx {α : Type} [DecidableEq α] (fuel : Nat) :
    ∀ (l : List α), l.length ≤ fuel →
      (dedupFirstAux fuel l).Pairwise fun a b => firstIdx a l < firstIdx b l := by
  induction fuel with
  | zero => intro l _; simp [dedupFirstAux]
  | succ fuel ih =>
    intro l h
    cases l with
    | nil => simp [dedupFirstAux]
    | cons x xs =>
      have hlen : (xs.filter fun y => decide (y ≠ x)).length ≤ fuel :=
        Nat.le_trans (List.length_filter_le _ _) (Nat.le_of_succ_le_succ h)
      have hsub : ∀ k, k ∈ dedupFirstAux fuel (xs.filter fun y => decide (y ≠ x)) →
          k ∈ xs.filter fun y => decide (y ≠ x) :=
        fun k hk => (dedupFirstAux_mem fuel _ hlen k).mp hk
      have hne : ∀ k, k ∈ xs.filter (fun y => decide (y ≠ x)) → k ≠ x := by
        intro k hk
        have := (List.mem_filter.mp hk).2
        simpa using this
      simp only [dedupFirstAux]
      rw [List.pairwise_cons]
      constructor
      · intro b hb
        have hbx : b ≠ x := hne b (hsub b hb)
        have hxb : x ≠ b := Ne.symm hbx
        simp [firstIdx, hxb]
      · have hP := ih (xs.filter fun y => decide (y ≠ x)) hlen
        refine hP.imp_of_mem ?_
        intro a b ha hb hr
        have hax : a ≠ x := hne a (hsub a ha)
        have hbx : b ≠ x := hne b (hsub b hb)
        have hstep : firstIdx a xs < firstIdx b xs :=
          firstIdx_filter_lt _ xs a b (hsub a ha) (hsub b hb) hr
        simp only [firstIdx, if_neg (Ne.symm hax), if_neg (Ne.symm hbx)]
        omega

/-! Specializations to `dedupFirst` (fuel = list length). -/

theorem dedupFirst_mem {α : Type} [DecidableEq α] (l : List α) (a : α) :
    a ∈ dedupFirst l ↔ a ∈ l :=
  dedupFirstAux_mem l.length l (Nat.le_refl _) a

theorem dedupFirst_nodup {α : Type} [DecidableEq α] (l : List α) :
    (dedupFirst l).Nodup :=
  dedupFirstAux_nodup l.length l (Nat.le_refl _)

theorem dedupFirst_sublist {α : Type} [DecidableEq α] (l : List α) :
    List.Sublist (dedupFirst l) l :=
  dedupFirstAux_sublist l.length l

theorem dedupFirst_pairwise_firstIdx {α : Type} [DecidableEq α] (l : List α) :
    (dedupFirst l).Pairwise fun a b => firstIdx a l < firstIdx b l :=
  dedupFirstAux_pairwise_firstIdx l.length l (Nat.le_refl _)

theorem sum_countP_dedupFirst {α : Type} [DecidableEq α] (l : List α) :
    ((dedupFirst l).map fun k => l.countP fun y => decide (y = k)).sum = l.length :=
  sum_countP_dedupFirstAux l.length l (Nat.le_refl _)

/-! ## The claims -/

/-- Claim C1 (refuted by the code — code bug): the claim says
`_run_single_test` never raises past its own boundary, converting every
subprocess launch/stream failure into a normal return.  In fact, when the
launch call on line 93 itself raises, the local `process` is never assigned,
so the `finally` block's `if process ...` test on line 112 raises
`UnboundLocalError`, which escapes the function (after the original error was
logged by line 110). -/
theorem run_single_test_launch_error_escapes :
    (_run_single_test "https://example.com" 1000 1000 "30"
        RunCase.launchError).escapedExn = some ⟨"UnboundLocalError", true⟩
    ∧ (_run_single_test "https://example.com" 1000 1000 "30"
        RunCase.launchError).loggedError = true :=
  ⟨rfl, rfl⟩

/-- Claim C2: whenever `_run_single_test` leaves its try/except — on success,
on an exception during launch or streaming, or on cancellation — the
guaranteed-cleanup block runs; no subprocess the call launched is left
running, and whenever the process reference exists with its exit code not yet
observed, the process is sent a termination signal and then waited for. -/
theorem run_single_test_cleanup (url : String) (users spawn_rate : Nat)
    (run_time : String) (s : RunCase) :
    ((_run_single_test url users spawn_rate run_time s).finalProc.all
        fun p => !p.running) = true
    ∧ (cleanupNeeded (_run_single_test url users spawn_rate run_time s) = true →
        ((_run_single_test url users spawn_rate run_time s).finalProc.all
            fun p => p.terminated && p.returncode.isSome) = true
        ∧ (_run_single_test url users spawn_rate run_time s).finalProc.isSome
            = true) := by
  cases s with
  | launchError => exact ⟨rfl, fun h => nomatch h⟩
  | streamError => exact ⟨rfl, fun _ => ⟨rfl, rfl⟩⟩
  | cancelledMidStream => exact ⟨rfl, fun _ => ⟨rfl, rfl⟩⟩
  | success => exact ⟨rfl, fun h => nomatch h⟩

/-- Witness for C2: in the stream-error scenario the cleanup condition holds
and the process ends terminated, reaped and not running. -/
theorem run_single_test_cleanup_witness :
    cleanupNeeded (_run_single_test "https://example.com" 1000 1000 "30"
        RunCase.streamError) = true
    ∧ ((_run_single_test "https://example.com" 1000 1000 "30"
        RunCase.streamError).finalProc.all
          fun p => p.terminated && p.returncode.isSome) = true :=
  ⟨rfl, ((run_single_test_cleanup "https://example.com" 1000 1000 "30"
      RunCase.streamError).2 rfl).1⟩

/-- Claim C3 (refuted by the code — code bug, same root cause as C1): the
claim says one runner's failure neither cancels nor delays siblings and the
orchestrator returns only after every per-URL task reaches a terminal state.
When one URL's subprocess launch raises, that runner raises
`UnboundLocalError` (see C1); `await gather(...)` (line 126, default
`return_exceptions=False`) re-raises it immediately instead of awaiting the
remaining children, so the orchestrator's await resumes while the sibling may
still be running (and `asyncio.run` then cancels it). -/
theorem run_concurrent_tests_sibling_not_isolated :
    (run_concurrent_tests ["https://a.com", "https://b.com"] 1000 1000 "30"
        fun u => if u = "https://a.com" then RunCase.launchError
                 else RunCase.success).awaitedAllChildren = false
    ∧ (run_concurrent_tests ["https://a.com", "https://b.com"] 1000 1000 "30"
        fun u => if u = "https://a.com" then RunCase.launchError
                 else RunCase.success).escapedExn
        = some ⟨"UnboundLocalError", true⟩ := by
  exact ⟨by decide, by decide⟩

/-- Claim C4: the orchestrator launches exactly one per-URL test per distinct
URL of the input list — the task list is the de-duplicated URL list mapped
through the runner — and the de-duplicated list has no duplicates, has
exactly the members of the input, is a sublist of the input, and lists URLs
in strictly increasing order of first occurrence. -/
theorem run_concurrent_tests_one_test_per_distinct_url (urls : List String)
    (users spawn_rate : Nat) (run_time : String) (scen : String → RunCase) :
    (run_concurrent_tests urls users spawn_rate run_time scen).runs
        = (dedupFirst urls).map
            (fun u => _run_single_test u users spawn_rate run_time (scen u))
    ∧ (dedupFirst urls).Nodup
    ∧ (∀ u, u ∈ dedupFirst urls ↔ u ∈ urls)
    ∧ List.Sublist (dedupFirst urls) urls
    ∧ (dedupFirst urls).Pairwise fun a b => firstIdx a urls < firstIdx b urls :=
  ⟨rfl, dedupFirst_nodup urls, fun u => dedupFirst_mem urls u,
   dedupFirst_sublist urls, dedupFirst_pairwise_firstIdx urls⟩

/-- Claim C5: called with an empty URL list, `run_break_test` logs an error
and returns normally — the orchestrator is never invoked, zero subprocess
launches are performed, and no exception reaches the caller. -/
theorem run_break_test_empty_urls (rt : Int) (scen : String → RunCase) :
    (run_break_test [] rt scen).loggedNoUrls = true
    ∧ (run_break_test [] rt scen).orchestrated = none
    ∧ launchedCmds (run_break_test [] rt scen) = []
    ∧ (run_break_test [] rt scen).escapedExn = none :=
  ⟨rfl, rfl, rfl, rfl⟩

/-- Counterexample to claim C6: the claim describes sanitization as stripping
the `https://` / `http://` prefixes; the code instead removes every
occurrence of those substrings.  On the target URL
`https://a.com/?u=https://b.com` (an embedded scheme occurrence) the two
descriptions produce different paths. -/
theorem reportFilename_differs_from_spec_strip :
    reportFilename "https://a.com/?u=https://b.com"
      ≠ reportFilename_specStrip "https://a.com/?u=https://b.com" := by
  decide

/-- Claim C6 as amended: the report path is
`performance_tests/break_check/<sanitized_url>.json`, where sanitization
removes every occurrence of `https://` and then of `http://` (not only
leading ones) and then replaces every `/` and every `.` with `_`; in
particular the URL `https://example.com` is written to
`performance_tests/break_check/example_com.json`. -/
theorem reportFilename_shape (url : String) :
    reportFilename url
        = "performance_tests/break_check/" ++ url_part url ++ ".json"
    ∧ reportFilename "https://example.com"
        = "performance_tests/break_check/example_com.json" :=
  ⟨rfl, by decide⟩

/-- Counterexample to claim C7: the sanitization is not collision-resistant —
the distinct target URLs `https://example.com` and `http://example.com` are
written to the same file. -/
theorem url_part_not_injective :
    "https://example.com" ≠ "http://example.com"
    ∧ reportFilename "https://example.com" = reportFilename "http://example.com" :=
  ⟨by decide, by decide⟩

/-- Claim C7 as amended: the filename is a deterministic function of the
target URL alone — it does not depend on the run's recorded statistics, so
repeated runs against the same URL overwrite the same file — but the
transform is not collision-resistant: distinct URLs (for example, the same
host reached via `https` and via `http`) can map to the same filename. -/
theorem reportFilename_deterministic_but_collides :
    (∀ (e : LocustEnv) (r1 r2 : List ReqRecord) (t1 t2 : String),
        (save_results { e with requests := r1 } t1).2
          = (save_results { e with requests := r2 } t2).2)
    ∧ "https://example.com" ≠ "http://example.com"
    ∧ reportFilename "https://example.com" = reportFilename "http://example.com" :=
  ⟨fun _ _ _ _ _ => rfl, by decide, by decide⟩

/-- Claim C8: in every written report, `total_requests` equals the sum of the
`requests` fields over all entries of the report's `stats` array. -/
theorem save_results_total_requests (env : LocustEnv) (now : String) :
    (save_results env now).1.total_requests
      = (((save_results env now).1.stats).map fun s => s.requests).sum := by
  show env.requests.length = ((statsEntries env).map fun s => s.requests).sum
  simp only [statsEntries, List.map_map]
  have hsum := sum_countP_dedupFirst (env.requests.map keyOf)
  rw [List.length_map] at hsum
  rw [← hsum]
  congr 1
  apply List.map_congr_left
  intro k _
  rw [List.countP_map]
  rfl

/-- Claim C9: the report's `test_duration` equals the total's last-request
timestamp minus its start time, each defaulting to 0 when the attribute is
absent; with both absent the written duration is exactly 0, and with only the
last-request timestamp absent it is negative. -/
theorem save_results_test_duration (env : LocustEnv) (now : String) :
    (save_results env now).1.test_duration
        = env.last_request_timestamp.getD 0 - env.start_time.getD 0
    ∧ (save_results
          { env with last_request_timestamp := none, start_time := none }
          now).1.test_duration = 0
    ∧ ∀ s : ℚ, 0 < s →
        (save_results
          { env with last_request_timestamp := none, start_time := some s }
          now).1.test_duration < 0 := by
  refine ⟨rfl, by simp [save_results], fun s hs => ?_⟩
  have hval : (save_results
      { env with last_request_timestamp := none, start_time := some s }
      now).1.test_duration = -s := by
    simp [save_results]
  rw [hval]
  exact neg_lt_zero.mpr hs

/-- Witness for C9: a degenerate run with no last-request timestamp and a
positive start time yields a negative written duration. -/
theorem save_results_test_duration_witness :
    (0 : ℚ) < 5
    ∧ (save_results
        { envDegenerate with last_request_timestamp := none, start_time := some 5 }
        "2026-01-01T00:00:00").1.test_duration < 0 :=
  ⟨by norm_num,
   (save_results_test_duration envDegenerate "2026-01-01T00:00:00").2.2 5
     (by norm_num)⟩

/-- Claim C10: every call of the public entry `run_break_test` drives each
launched test with exactly 1000 users and spawn rate 1000 — for every caller
input, each launched argument vector is the one built with users = 1000 and
spawn rate = 1000 (the entry point's interface offers no way to change
them). -/
theorem run_break_test_hardcoded_load (urls : List String) (rt : Int)
    (scen : String → RunCase) :
    launchedCmds (run_break_test urls rt scen)
      = (dedupFirst urls).map fun u => buildCmd u 1000 1000 (toString rt) := by
  cases urls with
  | nil => rfl
  | cons x xs =>
    show (((dedupFirst (x :: xs)).map fun u =>
        _run_single_test u 1000 1000 (toString rt) (scen u)).map fun r => r.cmd)
      = (dedupFirst (x :: xs)).map fun u => buildCmd u 1000 1000 (toString rt)
    rw [List.map_map]
    rfl

end LocustBreakCheck
